import Mathlib

/-!
Verification of the CelestOS fault-isolation layer.

This file is a shallow embedding of the descriptor-table subsystem
(src/src/gdt.rs), the exception vector table (src/src/interrupts.rs), the
boot sequencer (src/src/lib.rs `init`) and the VGA text writer
(src/src/vga_buffer.rs).  Machine words are modelled as `Nat`; virtual
addresses are modelled as `Nat`.  External-crate behaviour that the
repository relies on (the x86_64 crate's table types, the lazy_static
one-shot initialisation and the CPU's fault-dispatch microarchitecture) is
modelled from the specification and marked as such in the doc comments.
-/

namespace CelestOS

/-! ## Task State Segment (src/src/gdt.rs) -/

/-- Embeds `DOUBLE_FAULT_IST_INDEX` (src/src/gdt.rs line 69). -/
def DOUBLE_FAULT_IST_INDEX : Nat := 0

/-- Embeds the `STACK_SIZE` constant of the emergency stack buffer
(src/src/gdt.rs line 79): `4096 * 5` bytes. -/
def STACK_SIZE : Nat := 4096 * 5

/-- Embeds the x86_64 `TaskStateSegment` as the two stack tables the source
and the spec use: a Privilege Stack Table of 3 stack-top addresses and an
Interrupt Stack Table of 7 stack-top addresses (addresses as `Nat`). -/
structure TaskStateSegment where
  privilege_stack_table : List Nat
  interrupt_stack_table : List Nat
deriving DecidableEq

/-- Embeds `TaskStateSegment::new()`: all stack-table entries start at 0. -/
def TaskStateSegment.new : TaskStateSegment :=
  ⟨[0, 0, 0], [0, 0, 0, 0, 0, 0, 0]⟩

/-- Embeds the `TSS` construction (src/src/gdt.rs lines 72-88): entry
`DOUBLE_FAULT_IST_INDEX` of the Interrupt Stack Table is set to
`stack_start + STACK_SIZE`, the top of the statically reserved emergency
stack buffer.  The buffer's base address (the link-time address of the
`STACK` static) is the parameter `stack_base`. -/
def buildTSS (stack_base : Nat) : TaskStateSegment :=
  let tss := TaskStateSegment.new
  { tss with interrupt_stack_table :=
      tss.interrupt_stack_table.set DOUBLE_FAULT_IST_INDEX (stack_base + STACK_SIZE) }

/-! ## Global Descriptor Table (src/src/gdt.rs) -/

/-- Embeds the x86_64 `SegmentSelector`: the index of the descriptor in the
table, plus the requested privilege level. -/
structure SegmentSelector where
  index : Nat
  rpl : Nat
deriving DecidableEq

/-- Embeds the x86_64 `Descriptor` enum as used by the source: a user
segment occupies one 8-byte table slot, a system segment (the task-state
segment descriptor) occupies two. -/
inductive Descriptor where
  | userSegment (value : Nat)
  | systemSegment (low high : Nat)
deriving DecidableEq

/-- Table words (8-byte entries) a descriptor occupies when appended. -/
def Descriptor.words : Descriptor → List Nat
  | .userSegment v => [v]
  | .systemSegment low high => [low, high]

/-- Descriptor privilege level.  Both descriptors this program appends
(the kernel code segment and the task-state segment) are ring 0, so the
selectors it produces carry requested privilege level 0. -/
def Descriptor.dpl (_ : Descriptor) : Nat := 0

/-- Embeds `Descriptor::kernel_code_segment()`: the fixed 64-bit kernel
code descriptor word of the x86_64 crate. -/
def kernel_code_segment : Descriptor := .userSegment 0x00af9b000000ffff

/-- Modelled from the spec: `Descriptor::tss_segment(&TSS)` packs the
address of the task state structure into a two-slot system-segment
descriptor.  The bit packing lives in the external x86_64 crate, so the
two descriptor words are kept abstract as parameters. -/
def tss_segment (low high : Nat) : Descriptor := .systemSegment low high

/-- Modelled from the spec: the x86_64 `GlobalDescriptorTable` is a list of
8-byte descriptor slots (§4.1: `append` inserts a descriptor and returns a
selector; `load` installs the table without altering it). -/
structure GlobalDescriptorTable where
  table : List Nat
deriving DecidableEq

/-- Embeds `GlobalDescriptorTable::new()`: slot 0 holds the mandatory null
descriptor, so the first appended descriptor gets index 1. -/
def GlobalDescriptorTable.new : GlobalDescriptorTable := ⟨[0]⟩

/-- Modelled from the spec (§4.1): `append` pushes the descriptor's words
at the end of the table and returns a selector whose index names the first
slot the descriptor occupies. -/
def GlobalDescriptorTable.append (g : GlobalDescriptorTable) (d : Descriptor) :
    GlobalDescriptorTable × SegmentSelector :=
  (⟨g.table ++ d.words⟩, ⟨g.table.length, d.dpl⟩)

/-- Modelled from the spec (§4.1): `load()` installs the table as the CPU's
active descriptor table; it does not alter any entry. -/
def GlobalDescriptorTable.load (g : GlobalDescriptorTable) : GlobalDescriptorTable := g

/-- Embeds the `Selectors` struct (src/src/gdt.rs lines 119-122). -/
structure Selectors where
  code_selector : SegmentSelector
  tss_selector : SegmentSelector
deriving DecidableEq

/-- Embeds the `GDT` construction (src/src/gdt.rs lines 90-116): a fresh
table, the kernel code segment appended first, the task-state segment
descriptor appended second.  `tss_low`/`tss_high` are the two words of the
task-state descriptor (computed from the TSS address by the external
crate). -/
def buildGDT (tss_low tss_high : Nat) : GlobalDescriptorTable × Selectors :=
  let gdt0 := GlobalDescriptorTable.new
  let (gdt1, code_selector) := gdt0.append kernel_code_segment
  let (gdt2, tss_selector) := gdt1.append (tss_segment tss_low tss_high)
  (gdt2, ⟨code_selector, tss_selector⟩)

/-- Appends a whole list of descriptors in order, returning the final table
together with the (selector, descriptor) pair produced for each append. -/
def appendAll (g : GlobalDescriptorTable) :
    List Descriptor → GlobalDescriptorTable × List (SegmentSelector × Descriptor)
  | [] => (g, [])
  | d :: ds =>
    ((appendAll (g.append d).1 ds).1,
     ((g.append d).2, d) :: (appendAll (g.append d).1 ds).2)

/-- Concatenation of the table words of a list of descriptors. -/
def wordsOf : List Descriptor → List Nat
  | [] => []
  | d :: ds => d.words ++ wordsOf ds

/-! ## Interrupt Descriptor Table (src/src/interrupts.rs) -/

/-- Embeds the x86_64 `InterruptStackFrame`: the register snapshot hardware
pushes before invoking a handler. -/
structure InterruptStackFrame where
  instruction_pointer : Nat
  code_segment : Nat
  cpu_flags : Nat
  stack_pointer : Nat
  stack_segment : Nat

/-- An exception-vector entry as the claims need it: the registered handler
(a function from the pushed stack frame to the values it logs and whether
it returns normally), the stack-switch bits 0-2 of the options field
(0 = no stack switch, k = Interrupt Stack Table slot k-1) and the present
flag. -/
structure IDTEntry where
  handler : Option (InterruptStackFrame → List Nat × Bool)
  stack_index_bits : Nat
  present : Bool

/-- Embeds `Entry::missing()`: no handler, no stack switch, not present. -/
def IDTEntry.missing : IDTEntry := ⟨none, 0, false⟩

/-- Embeds `Entry::set_handler_fn`: installs the handler and sets the
present flag; the stack-switch bits are left at their current value
(0 unless `set_stack_index` is called, which this program never does). -/
def IDTEntry.set_handler_fn (e : IDTEntry)
    (h : InterruptStackFrame → List Nat × Bool) : IDTEntry :=
  { e with handler := some h, present := true }

/-- Embeds the x86_64 `InterruptDescriptorTable` restricted to the vectors
this development reasons about: breakpoint (vector 3), double fault
(vector 8) and page fault (vector 14).  The source program touches no
other entry, so every other vector stays `IDTEntry.missing`. -/
structure InterruptDescriptorTable where
  breakpoint : IDTEntry
  double_fault : IDTEntry
  page_fault : IDTEntry

/-- Embeds `InterruptDescriptorTable::new()`: every entry is missing. -/
def InterruptDescriptorTable.new : InterruptDescriptorTable :=
  ⟨IDTEntry.missing, IDTEntry.missing, IDTEntry.missing⟩

/-- Vector-number lookup into the table (3 = breakpoint, 8 = double fault,
14 = page fault, everything else missing in this build). -/
def InterruptDescriptorTable.entry (idt : InterruptDescriptorTable) : Nat → IDTEntry
  | 3 => idt.breakpoint
  | 8 => idt.double_fault
  | 14 => idt.page_fault
  | _ => IDTEntry.missing

/-- Embeds `breakpoint_handler` (src/src/interrupts.rs lines 139-141): it
prints the exception banner and the full `{:#?}` rendering of the stack
frame — so the values it logs include every frame field, in particular the
interrupted instruction pointer — and then returns normally (`true`). -/
def breakpoint_handler (stack_frame : InterruptStackFrame) : List Nat × Bool :=
  ([stack_frame.instruction_pointer, stack_frame.code_segment, stack_frame.cpu_flags,
    stack_frame.stack_pointer, stack_frame.stack_segment], true)

/-- Embeds the `IDT` construction (src/src/interrupts.rs lines 122-128): a
fresh table whose only registered entry is the breakpoint handler.  No
double-fault handler is registered and `set_stack_index` is never
called. -/
def buildIDT : InterruptDescriptorTable :=
  let idt := InterruptDescriptorTable.new
  { idt with breakpoint := idt.breakpoint.set_handler_fn breakpoint_handler }

/-! ## Boot sequencer (src/src/lib.rs `init`, src/src/gdt.rs `init`,
src/src/interrupts.rs `init_idt`) -/

/-- Observable initialization steps, in program order: descriptor appends
during the lazy construction of the GDT, the GDT load, the code-segment
register write, the task-register load, and the lazy construction and load
of the IDT. -/
inductive InitEvent where
  | gdtAppend (d : Descriptor) (s : SegmentSelector)
  | gdtLoad
  | csSet (s : SegmentSelector)
  | trLoad (s : SegmentSelector)
  | idtBuild
  | idtLoad
deriving DecidableEq

/-- Embeds `gdt::init` (src/src/gdt.rs lines 123-148) as its event trace:
the first dereference of the lazy `GDT` static builds the table (kernel
code segment appended before the task-state descriptor, per
src/src/gdt.rs lines 103 and 114), then `GDT.0.load()`, then
`CS::set_reg(GDT.1.code_selector)`, then `load_tss(GDT.1.tss_selector)`. -/
def gdt_init (tss_low tss_high : Nat) : List InitEvent :=
  let built := buildGDT tss_low tss_high
  [InitEvent.gdtAppend kernel_code_segment built.2.code_selector,
   InitEvent.gdtAppend (tss_segment tss_low tss_high) built.2.tss_selector,
   InitEvent.gdtLoad,
   InitEvent.csSet built.2.code_selector,
   InitEvent.trLoad built.2.tss_selector]

/-- Embeds `init_idt` (src/src/interrupts.rs lines 130-136) as its event
trace: `IDT.load()` first forces the lazy construction of the IDT, then
loads it. -/
def init_idt_trace : List InitEvent := [InitEvent.idtBuild, InitEvent.idtLoad]

/-- Embeds `init` (src/src/lib.rs lines 73-76): `gdt::init()` followed by
`interrupts::init_idt()`. -/
def init (tss_low tss_high : Nat) : List InitEvent :=
  gdt_init tss_low tss_high ++ init_idt_trace

/-! ## Lazy one-shot construction (lazy_static) -/

/-- Result of forcing a lazy cell: the updated cell, the value obtained,
and how many times the builder ran during this force. -/
structure ForceResult (α : Type) where
  cell : Option α
  value : α
  builds : Nat

/-- Modelled from the spec: the lazy_static crate initialises each static
on first dereference and caches the value; later dereferences return the
cached value without rebuilding (§3 lifecycle: tables are constructed
lazily, once, during single-threaded boot). -/
def lazyForce {α : Type} (cell : Option α) (build : α) : ForceResult α :=
  match cell with
  | some v => ⟨some v, v, 0⟩
  | none => ⟨some build, build, 1⟩

/-! ## Fault dispatch (modelled from the spec) -/

/-- Terminal outcome of a fault-dispatch episode. -/
inductive Outcome where
  | resume
  | halt
  | reset
deriving DecidableEq

/-- Result of the stack-overflow cascade: the terminal outcome, how many
times the double-fault handler ran, and whether dispatch ever switched to
an emergency stack. -/
structure CascadeResult where
  outcome : Outcome
  double_fault_handler_runs : Nat
  switched_to_emergency_stack : Bool
deriving DecidableEq

/-- Modelled from the spec: the §4.4 hardware state machine for a fault
raised while the active stack is corrupt or exhausted (the stack-overflow
scenario).  Looking up the vector: an absent entry re-raises as the
escalation (double-fault) vector; a present entry with stack-switch bits 0
attempts the frame push on the corrupt stack, which itself faults and
escalates; a present entry with a configured stack switch pushes the frame
on the emergency stack and runs the handler — for the double-fault vector
the contained-fault handler halts deliberately (§7), for any other vector
the handler would return and resume.  The fuel argument counts the
escalations hardware tolerates: after three consecutive escalations the
CPU performs an unconditional reset. -/
def raiseOnCorruptStack (idt : InterruptDescriptorTable) : Nat → Nat → CascadeResult
  | _, 0 => ⟨Outcome.reset, 0, false⟩
  | vector, fuel + 1 =>
    let e := idt.entry vector
    if e.present = false then raiseOnCorruptStack idt 8 fuel
    else if e.stack_index_bits = 0 then raiseOnCorruptStack idt 8 fuel
    else if vector = 8 then ⟨Outcome.halt, 1, true⟩
    else ⟨Outcome.resume, 0, true⟩

/-- Modelled from the spec: the configuration §4.3 requires — identical to
the table the source builds except that the double-fault entry is present
with stack-switch bits selecting Interrupt Stack Table slot
`DOUBLE_FAULT_IST_INDEX` (options bits value = slot + 1). -/
def intendedIDT : InterruptDescriptorTable :=
  { buildIDT with double_fault :=
      ⟨some (fun frame => ([frame.instruction_pointer, frame.code_segment,
          frame.cpu_flags, frame.stack_pointer, frame.stack_segment], false)),
       DOUBLE_FAULT_IST_INDEX + 1, true⟩ }

/-- Result of dispatching a software breakpoint trap. -/
structure TrapResult where
  invocations : Nat
  logged : List Nat
  resumed_at : Option Nat

/-- Modelled from the spec: hardware dispatch of the `int3` software trap
on a valid stack (§4.4).  Hardware pushes the frame — with the saved
instruction pointer already pointing at the instruction following the
trap — looks up vector 3, and if the entry is present invokes its handler
once; a handler that returns normally makes hardware pop the frame and
resume at the saved instruction pointer.  An absent entry would escalate
instead (no invocation, no resume). -/
def int3_dispatch (idt : InterruptDescriptorTable)
    (next_rip cs flags sp ss : Nat) : TrapResult :=
  let e := idt.entry 3
  match e.handler with
  | none => ⟨0, [], none⟩
  | some h =>
    if e.present then
      let frame : InterruptStackFrame := ⟨next_rip, cs, flags, sp, ss⟩
      let r := h frame
      ⟨1, r.1, if r.2 then some frame.instruction_pointer else none⟩
    else ⟨0, [], none⟩

/-! ## Claim C1 and C2 theorems -/

/-- C1: the claim says that after `initialize()` the double-fault vector
entry is present with a stack-switch index selecting Interrupt Stack Table
slot `DOUBLE_FAULT_IST_INDEX`.  The code violates this: the IDT built by
`init_idt` (src/src/interrupts.rs lines 122-128) never touches the
double-fault entry, so it stays missing — present flag clear and
stack-switch bits 0 (no stack switch, selecting no slot at all). -/
theorem c1_double_fault_entry_unconfigured :
    buildIDT.double_fault.present = false
    ∧ buildIDT.double_fault.stack_index_bits = 0
    ∧ buildIDT.double_fault.handler.isNone = true
    ∧ DOUBLE_FAULT_IST_INDEX = 0 :=
  ⟨rfl, rfl, rfl, rfl⟩

/-- C2: the address stored in Interrupt Stack Table entry 0 of the task
state structure equals the emergency-stack buffer's base address plus the
buffer length `4096 * 5 = 20480` — the top of the buffer, which differs
from its bottom. -/
theorem c2_ist0_holds_stack_top (stack_base : Nat) :
    (buildTSS stack_base).interrupt_stack_table.length = 7
    ∧ (buildTSS stack_base).interrupt_stack_table.getD DOUBLE_FAULT_IST_INDEX 0
        = stack_base + 4096 * 5
    ∧ STACK_SIZE = 20480
    ∧ stack_base + STACK_SIZE ≠ stack_base := by
  refine ⟨rfl, rfl, rfl, ?_⟩
  simp [STACK_SIZE]

/-- C3: `initialize()` performs its steps in exactly this order: build the
descriptor table with the code-segment descriptor (selector index 1)
appended before the task-state descriptor (selector index 2), load the
descriptor table, point the code-segment register at the new code
selector, load the task register with the task-state selector, and only
then build and load the exception vector table. -/
theorem c3_init_order (tss_low tss_high : Nat) :
    init tss_low tss_high =
      [InitEvent.gdtAppend kernel_code_segment ⟨1, 0⟩,
       InitEvent.gdtAppend (tss_segment tss_low tss_high) ⟨2, 0⟩,
       InitEvent.gdtLoad,
       InitEvent.csSet ⟨1, 0⟩,
       InitEvent.trLoad ⟨2, 0⟩,
       InitEvent.idtBuild,
       InitEvent.idtLoad] := rfl

/-- C4: the claim says that after `initialize()` exhausting the call stack
makes the double-fault handler run exactly once on the emergency stack and
halt, with no reset.  On the table the code actually builds (double-fault
entry missing) the escalation cascade instead reaches three consecutive
escalations and a hardware reset, with the handler never running; the same
dispatch model run on the configuration the spec requires (double-fault
entry present with a stack switch) does produce the claimed contained
halt, showing the divergence comes from the missing registration, not from
the model. -/
theorem c4_stack_overflow_resets_not_contained :
    raiseOnCorruptStack buildIDT 14 3 = ⟨Outcome.reset, 0, false⟩
    ∧ raiseOnCorruptStack intendedIDT 14 3 = ⟨Outcome.halt, 1, true⟩ :=
  ⟨rfl, rfl⟩

/-- C5: after `initialize()`, executing the `int3` software breakpoint trap
invokes the registered breakpoint handler exactly once, the handler's
logged output contains the interrupted instruction pointer (the address of
the instruction following the trap), and execution resumes at that
following instruction, so the program does not halt. -/
theorem c5_breakpoint_resumes (next_rip cs flags sp ss : Nat) :
    (int3_dispatch buildIDT next_rip cs flags sp ss).invocations = 1
    ∧ next_rip ∈ (int3_dispatch buildIDT next_rip cs flags sp ss).logged
    ∧ (int3_dispatch buildIDT next_rip cs flags sp ss).resumed_at = some next_rip := by
  refine ⟨rfl, ?_, rfl⟩
  show next_rip ∈ [next_rip, cs, flags, sp, ss]
  exact List.mem_cons_self _ _

/-- C7: forcing each lazily built table a second time before activation
rebuilds nothing — across both forces the builder runs exactly once and
the second force returns the very same table — and repeated lookups of the
selectors and of the emergency-stack address return identical values. -/
theorem c7_construction_idempotent (stack_base tss_low tss_high : Nat) :
    ((lazyForce (lazyForce none (buildTSS stack_base)).cell (buildTSS stack_base)).value
        = (lazyForce none (buildTSS stack_base)).value
      ∧ (lazyForce none (buildTSS stack_base)).builds
          + (lazyForce (lazyForce none (buildTSS stack_base)).cell (buildTSS stack_base)).builds = 1
      ∧ (lazyForce (lazyForce none (buildTSS stack_base)).cell (buildTSS stack_base)).value.interrupt_stack_table
          = (lazyForce none (buildTSS stack_base)).value.interrupt_stack_table)
    ∧ ((lazyForce (lazyForce none (buildGDT tss_low tss_high)).cell (buildGDT tss_low tss_high)).value
        = (lazyForce none (buildGDT tss_low tss_high)).value
      ∧ (lazyForce none (buildGDT tss_low tss_high)).builds
          + (lazyForce (lazyForce none (buildGDT tss_low tss_high)).cell (buildGDT tss_low tss_high)).builds = 1
      ∧ (lazyForce (lazyForce none (buildGDT tss_low tss_high)).cell (buildGDT tss_low tss_high)).value.2
          = (lazyForce none (buildGDT tss_low tss_high)).value.2)
    ∧ ((lazyForce (lazyForce none buildIDT).cell buildIDT).value
        = (lazyForce none buildIDT).value
      ∧ (lazyForce none buildIDT).builds
          + (lazyForce (lazyForce none buildIDT).cell buildIDT).builds = 1) :=
  ⟨⟨rfl, rfl, rfl⟩, ⟨rfl, rfl, rfl⟩, rfl, rfl⟩

/-! ## Claim C6: selectors returned by append stay valid after load -/

theorem appendAll_table (g : GlobalDescriptorTable) (ds : List Descriptor) :
    (appendAll g ds).1.table = g.table ++ wordsOf ds := by
  induction ds generalizing g with
  | nil => simp [appendAll, wordsOf]
  | cons d ds ih =>
    simp [appendAll, GlobalDescriptorTable.append, wordsOf, ih]

theorem appendAll_resolve (g : GlobalDescriptorTable) (ds : List Descriptor) :
    ∀ p ∈ (appendAll g ds).2,
      (((appendAll g ds).1.table.drop p.1.index).take p.2.words.length) = p.2.words := by
  induction ds generalizing g with
  | nil => intro p hp; simp [appendAll] at hp
  | cons d ds ih =>
    intro p hp
    rcases List.mem_cons.1 hp with h | h
    · subst h
      show ((appendAll g (d :: ds)).1.table.drop (g.append d).2.index).take d.words.length
        = d.words
      rw [appendAll_table, wordsOf]
      show ((g.table ++ (d.words ++ wordsOf ds)).drop g.table.length).take d.words.length
        = d.words
      rw [List.drop_left, List.take_left]
    · exact ih (g.append d).1 p h

/-- C6: for every descriptor appended to the descriptor table, the selector
returned by `append` identifies that same descriptor after `load()` — the
table slots starting at the selector's index hold exactly the descriptor's
words — and the selector stays stable once the table is active: `load`
leaves every table entry unchanged, and the design performs no mutation
after it, so the same lookup keeps resolving to the same descriptor. -/
theorem c6_selector_identifies_descriptor (ds : List Descriptor) :
    (appendAll GlobalDescriptorTable.new ds).1.load.table
        = (appendAll GlobalDescriptorTable.new ds).1.table
    ∧ ∀ p ∈ (appendAll GlobalDescriptorTable.new ds).2,
        (((appendAll GlobalDescriptorTable.new ds).1.load.table.drop p.1.index).take
            p.2.words.length) = p.2.words :=
  ⟨rfl, appendAll_resolve GlobalDescriptorTable.new ds⟩

/-- C6 witness: the two descriptors the program itself appends — the kernel
code segment (selector index 1) and a task-state descriptor (selector
index 2) — each resolve to their own words in the loaded table. -/
theorem c6_witness :
    (((appendAll GlobalDescriptorTable.new
        [kernel_code_segment, tss_segment 11 22]).1.load.table.drop 1).take 1
      = [0x00af9b000000ffff])
    ∧ (((appendAll GlobalDescriptorTable.new
        [kernel_code_segment, tss_segment 11 22]).1.load.table.drop 2).take 2
      = [11, 22]) :=
  ⟨(c6_selector_identifies_descriptor [kernel_code_segment, tss_segment 11 22]).2
      (⟨1, 0⟩, kernel_code_segment) (by decide),
   (c6_selector_identifies_descriptor [kernel_code_segment, tss_segment 11 22]).2
      (⟨2, 0⟩, tss_segment 11 22) (by decide)⟩

/-! ## Claim C8: the 16-byte exception-vector entry layout

The bit-exact encoding is produced by the external x86_64 crate; the source
documents the identical layout table in src/src/interrupts.rs lines 21-38,
and the spec mandates it in §6.  The encoder below is modelled from those
words; the decoders follow the claim's field positions, and the round-trip
theorem shows the positions are consistent. -/

/-- Numeric value of a flag bit. -/
def bitVal (b : Bool) : Nat := if b then 1 else 0

/-- Fields of the 16-bit options word of an exception-vector entry:
stack-switch index (bits 0-2), gate kind (bit 8, 1 = trap gate), minimum
privilege level (bits 13-14) and present flag (bit 15). -/
structure EntryOptionsFields where
  ist : Nat
  trap_gate : Bool
  dpl : Nat
  present : Bool

/-- Modelled from the spec: the options word packs the stack-switch index
in bits 0-2, zeros in the reserved bits 3-7, the gate kind in bit 8, ones
in bits 9-11, zero in bit 12, the privilege level in bits 13-14 and the
present flag in bit 15. -/
def encodeOptions (f : EntryOptionsFields) : Nat :=
  f.ist + 2 ^ 8 * bitVal f.trap_gate + 2 ^ 9 * 7 + 2 ^ 13 * f.dpl
    + 2 ^ 15 * bitVal f.present

/-- Fields of one exception-vector entry. -/
structure VectorEntryFields where
  handler_addr : Nat
  gdt_selector : Nat
  options : EntryOptionsFields

/-- Byte `i` (little endian) of a value. -/
def byteAt (v i : Nat) : Nat := v / 2 ^ (8 * i) % 2 ^ 8

/-- Modelled from the spec: the 16-byte exception-vector entry — handler
address bits 0-15, code-segment selector (2 bytes), options (2 bytes),
handler address bits 16-31, handler address bits 32-63, and 4 reserved
bytes, all little endian. -/
def encodeEntry (e : VectorEntryFields) : List Nat :=
  [byteAt e.handler_addr 0, byteAt e.handler_addr 1,
   byteAt e.gdt_selector 0, byteAt e.gdt_selector 1,
   byteAt (encodeOptions e.options) 0, byteAt (encodeOptions e.options) 1,
   byteAt e.handler_addr 2, byteAt e.handler_addr 3,
   byteAt e.handler_addr 4, byteAt e.handler_addr 5,
   byteAt e.handler_addr 6, byteAt e.handler_addr 7,
   0, 0, 0, 0]

/-- Reads the handler address back from the byte positions the claim
names: bytes 0-1, bytes 6-7 and bytes 8-11. -/
def decodeHandlerAddr (bs : List Nat) : Nat :=
  bs.getD 0 0 + 2 ^ 8 * bs.getD 1 0
    + 2 ^ 16 * bs.getD 6 0 + 2 ^ 24 * bs.getD 7 0
    + 2 ^ 32 * bs.getD 8 0 + 2 ^ 40 * bs.getD 9 0
    + 2 ^ 48 * bs.getD 10 0 + 2 ^ 56 * bs.getD 11 0

/-- Reads the code-segment selector back from bytes 2-3. -/
def decodeSelector (bs : List Nat) : Nat := bs.getD 2 0 + 2 ^ 8 * bs.getD 3 0

/-- Reads the options word back from bytes 4-5. -/
def decodeOptionsWord (bs : List Nat) : Nat := bs.getD 4 0 + 2 ^ 8 * bs.getD 5 0

/-- C8: every exception-vector entry occupies exactly 16 bytes in the
claimed layout: the handler address is recovered from bytes 0-1, 6-7 and
8-11, the code-segment selector from bytes 2-3, the options word from
bytes 4-5 with bits 0-2 the stack-switch index, bits 3-7 zero, bit 8 the
gate kind, bits 9-11 one, bit 12 zero, bits 13-14 the privilege level and
bit 15 the present flag, and bytes 12-15 are reserved zeros. -/
theorem c8_entry_layout (e : VectorEntryFields)
    (haddr : e.handler_addr < 2 ^ 64) (hsel : e.gdt_selector < 2 ^ 16)
    (hist : e.options.ist < 8) (hdpl : e.options.dpl < 4) :
    (encodeEntry e).length = 16
    ∧ decodeHandlerAddr (encodeEntry e) = e.handler_addr
    ∧ decodeSelector (encodeEntry e) = e.gdt_selector
    ∧ decodeOptionsWord (encodeEntry e) % 2 ^ 3 = e.options.ist
    ∧ decodeOptionsWord (encodeEntry e) / 2 ^ 3 % 2 ^ 5 = 0
    ∧ decodeOptionsWord (encodeEntry e) / 2 ^ 8 % 2 = bitVal e.options.trap_gate
    ∧ decodeOptionsWord (encodeEntry e) / 2 ^ 9 % 2 ^ 3 = 7
    ∧ decodeOptionsWord (encodeEntry e) / 2 ^ 12 % 2 = 0
    ∧ decodeOptionsWord (encodeEntry e) / 2 ^ 13 % 2 ^ 2 = e.options.dpl
    ∧ decodeOptionsWord (encodeEntry e) / 2 ^ 15 = bitVal e.options.present
    ∧ (encodeEntry e).drop 12 = [0, 0, 0, 0] := by
  obtain ⟨a, s, ⟨ist, g, dpl, p⟩⟩ := e
  have hb : bitVal g ≤ 1 := by cases g <;> simp [bitVal]
  have hp : bitVal p ≤ 1 := by cases p <;> simp [bitVal]
  dsimp only at haddr hsel hist hdpl
  refine ⟨rfl, ?_, ?_, ?_, ?_, ?_, ?_, ?_, ?_, ?_, rfl⟩
  all_goals
    simp only [encodeEntry, encodeOptions, byteAt, decodeHandlerAddr, decodeSelector,
      decodeOptionsWord, List.getD, List.getElem?_cons_zero, List.getElem?_cons_succ,
      Option.getD_some]
  all_goals norm_num
  all_goals omega

/-- C8 witness: the layout theorem evaluated at a concrete entry. -/
theorem c8_witness :
    ((1311768467463790320 < 2 ^ 64 ∧ 43 < 2 ^ 16 ∧ 1 < 8 ∧ 0 < 4)
    ∧ decodeHandlerAddr (encodeEntry ⟨1311768467463790320, 43, ⟨1, false, 0, true⟩⟩)
        = 1311768467463790320
    ∧ decodeOptionsWord (encodeEntry ⟨1311768467463790320, 43, ⟨1, false, 0, true⟩⟩) % 2 ^ 3
        = 1) :=
  ⟨⟨by norm_num, by norm_num, by norm_num, by norm_num⟩,
   (c8_entry_layout ⟨1311768467463790320, 43, ⟨1, false, 0, true⟩⟩
      (by norm_num) (by norm_num) (by norm_num) (by norm_num)).2.1,
   (c8_entry_layout ⟨1311768467463790320, 43, ⟨1, false, 0, true⟩⟩
      (by norm_num) (by norm_num) (by norm_num) (by norm_num)).2.2.2.1⟩

/-! ## VGA text writer (src/src/vga_buffer.rs)

The writer is embedded with an access trace: every operation returns the
new writer state together with the list of screen-buffer cells it read or
wrote, so that the in-bounds claim can be stated about exactly the
accesses the source performs. -/

/-- Embeds `BUFFER_HEIGHT` (src/src/vga_buffer.rs line 83). -/
def BUFFER_HEIGHT : Nat := 25

/-- Embeds `BUFFER_WIDTH` (src/src/vga_buffer.rs line 84). -/
def BUFFER_WIDTH : Nat := 80

/-- Embeds `ScreenChar`: an ASCII code point byte and a colour code byte. -/
structure ScreenChar where
  ascii_char : Nat
  color_code : Nat

/-- Embeds `ColorCode::new(fg, bg)`: `(bg << 4) | fg`. -/
def ColorCode_new (fg bg : Nat) : Nat := (bg <<< 4) ||| fg

/-- Embeds `Writer`: the current column in the last row, the colour code,
and the screen buffer (modelled as a total function from row and column to
the cell contents; the hardware buffer is the 25 × 80 window of it). -/
structure Writer where
  column_pos : Nat
  color_code : Nat
  buffer : Nat → Nat → ScreenChar

/-- One screen-buffer access performed by the writer. -/
inductive Access where
  | read (row col : Nat)
  | write (row col : Nat)
deriving DecidableEq

/-- Point update of the modelled screen buffer. -/
def writeBuf (b : Nat → Nat → ScreenChar) (row col : Nat) (v : ScreenChar) :
    Nat → Nat → ScreenChar :=
  fun r c => if r = row ∧ c = col then v else b r c

/-- Embeds the column loop of `Writer::clear_row` (src/src/vga_buffer.rs
lines 152-154): writes the blank character at the given row for each
column of the list. -/
def clearRowLoop (w : Writer) (row : Nat) (blank : ScreenChar) :
    List Nat → Writer × List Access
  | [] => (w, [])
  | col :: cols =>
    let w1 := { w with buffer := writeBuf w.buffer row col blank }
    let r := clearRowLoop w1 row blank cols
    (r.1, Access.write row col :: r.2)

/-- Embeds `Writer::clear_row` (src/src/vga_buffer.rs lines 147-155): the
blank cell is a space with the writer's colour code, written across all
`BUFFER_WIDTH` columns of the row. -/
def clear_row (w : Writer) (row : Nat) : Writer × List Access :=
  clearRowLoop w row ⟨0x20, w.color_code⟩ (List.range BUFFER_WIDTH)

/-- Embeds the inner column loop of `Writer::new_line` (src/src/vga_buffer.rs
lines 139-142): for each column, read the cell at `row` and write it at
`row - 1`. -/
def shiftRowLoop (w : Writer) (row : Nat) : List Nat → Writer × List Access
  | [] => (w, [])
  | col :: cols =>
    let ch := w.buffer row col
    let w1 := { w with buffer := writeBuf w.buffer (row - 1) col ch }
    let r := shiftRowLoop w1 row cols
    (r.1, Access.read row col :: Access.write (row - 1) col :: r.2)

/-- Embeds the outer row loop of `Writer::new_line`: rows `1` up to
`BUFFER_HEIGHT - 1` inclusive, each shifted one row up. -/
def shiftRowsLoop (w : Writer) : List Nat → Writer × List Access
  | [] => (w, [])
  | row :: rows =>
    let r1 := shiftRowLoop w row (List.range BUFFER_WIDTH)
    let r2 := shiftRowsLoop r1.1 rows
    (r2.1, r1.2 ++ r2.2)

/-- Embeds `Writer::new_line` (src/src/vga_buffer.rs lines 137-146): move
every character of rows `1..BUFFER_HEIGHT` one row up, clear the last row,
and reset `column_pos` to 0. -/
def new_line (w : Writer) : Writer × List Access :=
  let r1 := shiftRowsLoop w (List.range' 1 (BUFFER_HEIGHT - 1))
  let r2 := clear_row r1.1 (BUFFER_HEIGHT - 1)
  ({ r2.1 with column_pos := 0 }, r1.2 ++ r2.2)

/-- Embeds `Writer::write_byte` (src/src/vga_buffer.rs lines 107-124): a
newline byte triggers `new_line`; any other byte first wraps via
`new_line` if `column_pos` has reached `BUFFER_WIDTH`, then is written at
the last row and the current column, after which `column_pos` advances. -/
def write_byte (w : Writer) (byte : Nat) : Writer × List Access :=
  if byte = 10 then new_line w
  else
    let r1 := if BUFFER_WIDTH ≤ w.column_pos then new_line w else (w, [])
    let row := BUFFER_HEIGHT - 1
    let col := r1.1.column_pos
    let color_code := r1.1.color_code
    let w2 := { r1.1 with
      buffer := writeBuf r1.1.buffer row col ⟨byte, color_code⟩,
      column_pos := r1.1.column_pos + 1 }
    (w2, r1.2 ++ [Access.write row col])

/-- Embeds `Writer::write_string` (src/src/vga_buffer.rs lines 126-135):
each byte in the printable ASCII range `0x20..=0x7e` or equal to the
newline byte is passed to `write_byte` unchanged; every other byte is
replaced by `0xfe`. -/
def write_string (w : Writer) : List Nat → Writer × List Access
  | [] => (w, [])
  | byte :: rest =>
    let r1 :=
      if (0x20 ≤ byte ∧ byte ≤ 0x7e) ∨ byte = 10 then write_byte w byte
      else write_byte w 0xfe
    let r2 := write_string r1.1 rest
    (r2.1, r1.2 ++ r2.2)

/-- The byte substitution the claim describes: printable ASCII and newline
pass through, everything else becomes the substitute byte `0xfe`. -/
def translateByte (byte : Nat) : Nat :=
  if (0x20 ≤ byte ∧ byte ≤ 0x7e) ∨ byte = 10 then byte else 0xfe

/-- Runs `write_byte` over a list of bytes in order, concatenating the
access traces. -/
def runBytes (w : Writer) : List Nat → Writer × List Access
  | [] => (w, [])
  | byte :: rest =>
    let r1 := write_byte w byte
    let r2 := runBytes r1.1 rest
    (r2.1, r1.2 ++ r2.2)

/-- A call into the writer: one `write_byte` or one `write_string`. -/
inductive WriterOp where
  | wbyte (byte : Nat)
  | wstr (s : List Nat)

/-- Runs a sequence of writer calls in order. -/
def runOps (w : Writer) : List WriterOp → Writer × List Access
  | [] => (w, [])
  | op :: ops =>
    let r1 := match op with
      | .wbyte byte => write_byte w byte
      | .wstr s => write_string w s
    let r2 := runOps r1.1 ops
    (r2.1, r1.2 ++ r2.2)

/-- An access is in bounds when its row lies in `0..BUFFER_HEIGHT` and its
column in `0..BUFFER_WIDTH`. -/
def accessOk : Access → Prop
  | .read row col => row < BUFFER_HEIGHT ∧ col < BUFFER_WIDTH
  | .write row col => row < BUFFER_HEIGHT ∧ col < BUFFER_WIDTH

/-- Embeds the initial `WRITER` state (src/src/vga_buffer.rs lines 36-42):
`column_pos` 0 and colour `ColorCode::new(Color::Cyan, Color::Black)`
(cyan = 3, black = 0); the initial buffer contents are whatever the VGA
memory holds, kept as a parameter. -/
def WRITER_init (buf : Nat → Nat → ScreenChar) : Writer :=
  ⟨0, ColorCode_new 3 0, buf⟩

/-! ## Claim C9 and C10: writer invariants -/

theorem clearRowLoop_spec (row : Nat) (blank : ScreenChar) :
    ∀ (cols : List Nat) (w : Writer),
      (clearRowLoop w row blank cols).1.column_pos = w.column_pos
      ∧ (clearRowLoop w row blank cols).2 = cols.map (Access.write row) := by
  intro cols
  induction cols with
  | nil => intro w; exact ⟨rfl, rfl⟩
  | cons col cols ih =>
    intro w
    refine ⟨(ih _).1, ?_⟩
    show Access.write row col :: (clearRowLoop _ row blank cols).2
      = Access.write row col :: cols.map (Access.write row)
    rw [(ih _).2]

theorem clear_row_spec (w : Writer) (row : Nat) (hrow : row < BUFFER_HEIGHT) :
    (clear_row w row).1.column_pos = w.column_pos
    ∧ ∀ a ∈ (clear_row w row).2, accessOk a := by
  refine ⟨(clearRowLoop_spec row _ _ _).1, ?_⟩
  intro a ha
  simp only [clear_row] at ha
  rw [(clearRowLoop_spec row _ _ _).2] at ha
  rcases List.mem_map.1 ha with ⟨c, hc, rfl⟩
  exact ⟨hrow, List.mem_range.1 hc⟩

theorem shiftRowLoop_spec (row : Nat) (hrow : row < BUFFER_HEIGHT) :
    ∀ (cols : List Nat), (∀ c ∈ cols, c < BUFFER_WIDTH) →
    ∀ (w : Writer),
      (shiftRowLoop w row cols).1.column_pos = w.column_pos
      ∧ ∀ a ∈ (shiftRowLoop w row cols).2, accessOk a := by
  intro cols
  induction cols with
  | nil => intro _ w; exact ⟨rfl, by intro a ha; simp [shiftRowLoop] at ha⟩
  | cons col cols ih =>
    intro hcols w
    have hcol := hcols col (List.mem_cons_self _ _)
    have hrest : ∀ c ∈ cols, c < BUFFER_WIDTH :=
      fun c hc => hcols c (List.mem_cons_of_mem _ hc)
    refine ⟨(ih hrest _).1, ?_⟩
    intro a ha
    simp only [shiftRowLoop, List.mem_cons] at ha
    rcases ha with h | h | h
    · subst h; exact ⟨hrow, hcol⟩
    · subst h; exact ⟨Nat.lt_of_le_of_lt (Nat.sub_le row 1) hrow, hcol⟩
    · exact (ih hrest _).2 a h

theorem shiftRowsLoop_spec :
    ∀ (rows : List Nat), (∀ r ∈ rows, r < BUFFER_HEIGHT) →
    ∀ (w : Writer),
      (shiftRowsLoop w rows).1.column_pos = w.column_pos
      ∧ ∀ a ∈ (shiftRowsLoop w rows).2, accessOk a := by
  intro rows
  induction rows with
  | nil => intro _ w; exact ⟨rfl, by intro a ha; simp [shiftRowsLoop] at ha⟩
  | cons row rows ih =>
    intro hrows w
    have hrow := hrows row (List.mem_cons_self _ _)
    have hrest : ∀ r ∈ rows, r < BUFFER_HEIGHT :=
      fun r hr => hrows r (List.mem_cons_of_mem _ hr)
    have h1 := shiftRowLoop_spec row hrow (List.range BUFFER_WIDTH)
      (fun c hc => List.mem_range.1 hc) w
    constructor
    · show (shiftRowsLoop (shiftRowLoop w row (List.range BUFFER_WIDTH)).1 rows).1.column_pos
        = w.column_pos
      rw [(ih hrest _).1, h1.1]
    · intro a ha
      simp only [shiftRowsLoop, List.mem_append] at ha
      rcases ha with h | h
      · exact h1.2 a h
      · exact (ih hrest _).2 a h

theorem new_line_spec (w : Writer) :
    (new_line w).1.column_pos = 0 ∧ ∀ a ∈ (new_line w).2, accessOk a := by
  refine ⟨rfl, ?_⟩
  intro a ha
  simp only [new_line, List.mem_append] at ha
  rcases ha with h | h
  · exact (shiftRowsLoop_spec (List.range' 1 (BUFFER_HEIGHT - 1)) (by decide) w).2 a h
  · exact (clear_row_spec _ (BUFFER_HEIGHT - 1) (by decide)).2 a h

theorem write_byte_spec (w : Writer) (byte : Nat) :
    (write_byte w byte).1.column_pos ≤ BUFFER_WIDTH
    ∧ ∀ a ∈ (write_byte w byte).2, accessOk a := by
  by_cases hb : byte = 10
  · simp only [write_byte, if_pos hb]
    exact ⟨by rw [(new_line_spec w).1]; exact Nat.zero_le _, (new_line_spec w).2⟩
  · simp only [write_byte, if_neg hb]
    by_cases hcol : BUFFER_WIDTH ≤ w.column_pos
    · simp only [if_pos hcol]
      constructor
      · show (new_line w).1.column_pos + 1 ≤ BUFFER_WIDTH
        rw [(new_line_spec w).1]; decide
      · intro a ha
        rcases List.mem_append.1 ha with h | h
        · exact (new_line_spec w).2 a h
        · rcases List.mem_singleton.1 h with rfl
          rw [(new_line_spec w).1]
          exact ⟨by decide, by decide⟩
    · simp only [if_neg hcol]
      have hlt : w.column_pos < BUFFER_WIDTH := Nat.lt_of_not_le hcol
      constructor
      · exact Nat.succ_le_of_lt hlt
      · intro a ha
        rcases List.mem_append.1 ha with h | h
        · simp at h
        · rcases List.mem_singleton.1 h with rfl
          exact ⟨by decide, hlt⟩

theorem write_string_spec (s : List Nat) :
    ∀ (w : Writer), w.column_pos ≤ BUFFER_WIDTH →
      (write_string w s).1.column_pos ≤ BUFFER_WIDTH
      ∧ ∀ a ∈ (write_string w s).2, accessOk a := by
  induction s with
  | nil => intro w hw; exact ⟨hw, by intro a ha; simp [write_string] at ha⟩
  | cons byte rest ih =>
    intro w hw
    by_cases hc : (0x20 ≤ byte ∧ byte ≤ 0x7e) ∨ byte = 10
    · simp only [write_string, if_pos hc]
      refine ⟨(ih _ (write_byte_spec w byte).1).1, ?_⟩
      intro a ha
      rcases List.mem_append.1 ha with h | h
      · exact (write_byte_spec w byte).2 a h
      · exact (ih _ (write_byte_spec w byte).1).2 a h
    · simp only [write_string, if_neg hc]
      refine ⟨(ih _ (write_byte_spec w 0xfe).1).1, ?_⟩
      intro a ha
      rcases List.mem_append.1 ha with h | h
      · exact (write_byte_spec w 0xfe).2 a h
      · exact (ih _ (write_byte_spec w 0xfe).1).2 a h

theorem runOps_spec (ops : List WriterOp) :
    ∀ (w : Writer), w.column_pos ≤ BUFFER_WIDTH →
      (runOps w ops).1.column_pos ≤ BUFFER_WIDTH
      ∧ ∀ a ∈ (runOps w ops).2, accessOk a := by
  induction ops with
  | nil => intro w hw; exact ⟨hw, by intro a ha; simp [runOps] at ha⟩
  | cons op ops ih =>
    intro w hw
    cases op with
    | wbyte byte =>
      have h1 := write_byte_spec w byte
      refine ⟨(ih _ h1.1).1, ?_⟩
      intro a ha
      simp only [runOps, List.mem_append] at ha
      rcases ha with h | h
      · exact h1.2 a h
      · exact (ih _ h1.1).2 a h
    | wstr s =>
      have h1 := write_string_spec s w hw
      refine ⟨(ih _ h1.1).1, ?_⟩
      intro a ha
      simp only [runOps, List.mem_append] at ha
      rcases ha with h | h
      · exact h1.2 a h
      · exact (ih _ h1.1).2 a h

/-- C9: starting from the initial writer state (`column_pos = 0`), every
sequence of `write_byte` and `write_string` calls keeps
`column_pos ≤ BUFFER_WIDTH`, and every screen-buffer read or write any of
those calls performs (including those inside `new_line` and `clear_row`)
stays within row indices `0..24` and column indices `0..79`. -/
theorem c9_writer_stays_in_bounds (buf : Nat → Nat → ScreenChar) (ops : List WriterOp) :
    (runOps (WRITER_init buf) ops).1.column_pos ≤ BUFFER_WIDTH
    ∧ ∀ a ∈ (runOps (WRITER_init buf) ops).2, accessOk a :=
  runOps_spec ops (WRITER_init buf) (Nat.zero_le _)

/-- C9 witness: the in-bounds theorem evaluated at a concrete call
sequence — writing the byte `65` from the initial state accesses exactly
the cell at row 24, column 0, which is in bounds. -/
theorem c9_witness :
    (runOps (WRITER_init (fun _ _ => ⟨0, 0⟩)) [WriterOp.wbyte 65]).1.column_pos ≤ BUFFER_WIDTH
    ∧ accessOk (Access.write (BUFFER_HEIGHT - 1) 0) :=
  ⟨(c9_writer_stays_in_bounds (fun _ _ => ⟨0, 0⟩) [WriterOp.wbyte 65]).1,
   (c9_writer_stays_in_bounds (fun _ _ => ⟨0, 0⟩) [WriterOp.wbyte 65]).2
     (Access.write (BUFFER_HEIGHT - 1) 0) (by decide)⟩

/-- C10: `write_string` processes the string's bytes in order, writing each
byte unchanged when it lies in the printable range `0x20..=0x7e` or is the
newline byte, and writing the substitute byte `0xfe` in place of every
other byte — it behaves exactly like running `write_byte` over the
translated byte sequence. -/
theorem c10_write_string_translates (w : Writer) (s : List Nat) :
    write_string w s = runBytes w (s.map translateByte) := by
  induction s generalizing w with
  | nil => rfl
  | cons byte rest ih =>
    simp only [write_string, runBytes, List.map, translateByte]
    by_cases hc : (0x20 ≤ byte ∧ byte ≤ 0x7e) ∨ byte = 10
    · simp only [if_pos hc, ih]
    · simp only [if_neg hc, ih]

end CelestOS
